import Mathlib

/-!
# XenoScan: the Dolphin scanner target, the scan value tags and the scripting values

A shallow embedding of `ScannerTargetDolphin` (XenoScanEngine/ScannerTargetDolphin.cpp):
the static memory layout, `attach` / `detach`, `queryMemory`, `rawRead` and `rawWrite`;
of the tag enumeration and `getUnderlyingType` of XenoScanEngine/ScanVariant.h; and of the
conversions between scan values and scripting values of XenoScanLua/LuaEngine.cpp.

Conventions of the embedding.

* Guest addresses (the type `MemoryAddress`) and sizes (`size_t`) are natural numbers. The functions
  of ScannerTargetDolphin.cpp only compare addresses and take a minimum of two sizes; they
  perform no address arithmetic, so no wrap-around can occur in them.
* A nullable pointer is an `Option`; `none` is `nullptr`.
* The shared segment is a function from segment offsets to bytes. A host pointer into a
  mapped window is identified with the segment offset of the byte it points at: the
  window obtained for segment offset `o` starts at the byte with offset `o`.
* Calls into the host (acquire / release of the segment handle and of windows) are
  recorded in a trace, and their outcomes are supplied by a `Host` script.
* `ASSERT(this->isAttached())` is a precondition; the theorems state it as a hypothesis.
-/

namespace XenoScan

/-- The shared memory segment of the emulator: segment offset to byte. -/
abbrev Segment := Nat → UInt8

/-- Record `MemoryMapEntry`; its declaration is in ScannerTargetDolphin.h. The field names are
the ones ScannerTargetDolphin.cpp reads. -/
structure MemoryMapEntry where
  physicalBase : Nat
  logicalBase : Nat
  logicalEnd : Nat
  size : Nat
  isMirror : Bool
deriving DecidableEq, Repr

/-- Modelled from the spec: the three-argument constructor of `MemoryMapEntry`
(ScannerTargetDolphin.h is not among the sources). The spec gives the entry as
`(physicalBase, logicalBase, size)` with `logicalEnd = logicalBase + size - 1`; an entry
that is not built by `mirror` is not a mirror. -/
def MemoryMapEntry.ctor (physicalBase logicalBase : Nat) (size : Nat) :
    MemoryMapEntry :=
  { physicalBase := physicalBase
    logicalBase := logicalBase
    logicalEnd := logicalBase + size - 1
    size := size
    isMirror := false }

/-- Modelled from the spec: `MemoryMapEntry::mirror` (ScannerTargetDolphin.h is not among the
sources). A mirror translates `logicalBase`, preserves `physicalBase` and `size`, and sets
`isMirror`. -/
def MemoryMapEntry.mirror (e : MemoryMapEntry) (logicalBase : Nat) :
    MemoryMapEntry :=
  { physicalBase := e.physicalBase
    logicalBase := logicalBase
    logicalEnd := logicalBase + e.size - 1
    size := e.size
    isMirror := true }

/-- Record `MemoryView`: a map entry plus the host pointer to the mapped window. -/
structure MemoryView where
  details : MemoryMapEntry
  buffer : Option Nat
deriving DecidableEq, Repr

/-- Modelled from the spec: `MemoryView::containsAddress` (ScannerTargetDolphin.h is not
among the sources). A view contains the addresses from `logicalBase` to `logicalEnd`,
both included. -/
def MemoryView.containsAddress (v : MemoryView) (adr : Nat) : Bool :=
  decide (v.details.logicalBase ≤ adr ∧ adr ≤ v.details.logicalEnd)

/-- Modelled from the spec: `MemoryView::getPointerToMemory` (ScannerTargetDolphin.h is not
among the sources). It translates `adr` to a host pointer through the offset of `adr` in
the view and reports the number of bytes that remain from `adr` to the end of the view;
it yields `nullptr` when the view does not claim the address (or has no window). -/
def MemoryView.getPointerToMemory (v : MemoryView) (adr : Nat) :
    Option (Nat × Nat) :=
  match v.buffer with
  | none => none
  | some window =>
    if v.containsAddress adr then
      some (window + (adr - v.details.logicalBase), v.details.logicalEnd - adr + 1)
    else none

/-- Record `MemoryInformation` filled by `queryMemory`. -/
structure MemoryInformation where
  allocationBase : Nat
  allocationSize : Nat
  allocationEnd : Nat
  isCommitted : Bool
  isModule : Bool
  isMirror : Bool
  isMappedImage : Bool
  isMapped : Bool
  isWriteable : Bool
  isExecutable : Bool
deriving DecidableEq, Repr

/-- State of a `ScannerTargetDolphin` object. -/
structure ScannerTargetDolphin where
  sharedMemoryHandle : Option Nat
  views : List MemoryView
  lowestAddress : Nat
  highestAddress : Nat
  pointerSize : Nat
  littleEndian : Bool
deriving DecidableEq, Repr

/-- Outcomes of the host calls made during one `attach`: what `obtainSHMHandle` returns and
whether the `k`-th `obtainView` call succeeds. -/
structure Host where
  shmHandle : Option Nat
  viewMapped : Nat → Bool

/-- One call into the host, with its arguments and (for the acquiring calls) its result. -/
inductive HostCall where
  | obtainSHMHandle (result : Option Nat)
  | obtainView (handle : Nat) (offset size : Nat) (result : Option Nat)
  | releaseView (buffer : Nat)
  | releaseSHMHandle (handle : Nat)
deriving DecidableEq, Repr

/-- The windows a trace obtained, in order. -/
def obtainedViews : List HostCall → List Nat
  | [] => []
  | HostCall.obtainView _ _ _ (some p) :: t => p :: obtainedViews t
  | _ :: t => obtainedViews t

/-- The windows a trace released, in order. -/
def releasedViews : List HostCall → List Nat
  | [] => []
  | HostCall.releaseView p :: t => p :: releasedViews t
  | _ :: t => releasedViews t

/-- The segment handles a trace obtained, in order. -/
def obtainedHandles : List HostCall → List Nat
  | [] => []
  | HostCall.obtainSHMHandle (some h) :: t => h :: obtainedHandles t
  | _ :: t => obtainedHandles t

/-- The segment handles a trace released, in order. -/
def releasedHandles : List HostCall → List Nat
  | [] => []
  | HostCall.releaseSHMHandle h :: t => h :: releasedHandles t
  | _ :: t => releasedHandles t

/-- The host call `obtainView(handle, offset, size)` (`MapViewOfFile`), the `k`-th of an
attach: on success the window starts at segment offset `offset`. -/
def obtainView (host : Host) (k : Nat) (_handle : Nat) (offset _size : Nat) : Option Nat :=
  if host.viewMapped k then some offset else none

namespace ScannerTargetDolphin

def Mem1CachedMap : MemoryMapEntry := MemoryMapEntry.ctor 0x00000000 0x80000000 0x01800000

def Mem1UncachedMap : MemoryMapEntry := Mem1CachedMap.mirror 0xC0000000

def MemoryLayout : List MemoryMapEntry := [Mem1CachedMap, Mem1UncachedMap]

def isAttached (s : ScannerTargetDolphin) : Bool :=
  s.sharedMemoryHandle.isSome

/-- The release calls of the first loop of `detach`: one per view with a non-null buffer. -/
def releaseViews : List MemoryView → List HostCall
  | [] => []
  | view :: rest =>
    match view.buffer with
    | some b => HostCall.releaseView b :: releaseViews rest
    | none => releaseViews rest

/-- Function `ScannerTargetDolphin::detach`: the new state and the host calls made. -/
def detach (s : ScannerTargetDolphin) : ScannerTargetDolphin × List HostCall :=
  let released := releaseViews s.views
  let s1 := { s with views := [] }
  match s1.sharedMemoryHandle with
  | some h => ({ s1 with sharedMemoryHandle := none }, released ++ [HostCall.releaseSHMHandle h])
  | none => (s1, released)

/-- The loop of `attach` over the remaining layout entries; `k` counts the `obtainView`
calls made so far and `tr` is the trace so far. -/
def attachLoop (host : Host) (handle : Nat) :
    List MemoryMapEntry → Nat → ScannerTargetDolphin → List HostCall →
      Bool × ScannerTargetDolphin × List HostCall
  | [], _, s, tr => (true, s, tr)
  | map :: rest, k, s, tr =>
    let ramView := obtainView host k handle map.physicalBase map.size
    let tr1 := tr ++ [HostCall.obtainView handle map.physicalBase map.size ramView]
    match ramView with
    | none => (false, s.detach.1, tr1 ++ s.detach.2)
    | some p =>
      attachLoop host handle rest (k + 1)
        { s with
          views := s.views ++ [{ details := map, buffer := some p }]
          highestAddress :=
            if map.logicalEnd > s.highestAddress then map.logicalEnd else s.highestAddress
          lowestAddress :=
            if map.logicalBase < s.lowestAddress then map.logicalBase else s.lowestAddress }
        tr1

/-- Function `ScannerTargetDolphin::attach`: the returned flag, the new state and the host
calls made. The process identifier is not used by the body. -/
def attach (s : ScannerTargetDolphin) (host : Host) (_pid : Nat) :
    Bool × ScannerTargetDolphin × List HostCall :=
  if s.isAttached then (true, s, [])
  else
    let s1 := { s with sharedMemoryHandle := host.shmHandle }
    let tr := [HostCall.obtainSHMHandle host.shmHandle]
    match host.shmHandle with
    | none => (false, s1, tr)
    | some handle =>
      let s2 := { s1 with highestAddress := 0, lowestAddress := 0xFFFFFFFF }
      attachLoop host handle MemoryLayout 0 s2 tr

/-- The constructor of `ScannerTargetDolphin`: a null handle, no view, 32-bit big-endian,
then `detach()`. The address bounds are members of the base class and are not
initialised by this constructor; `lo` and `hi` stand for their values. -/
def construct (lo hi : Nat) : ScannerTargetDolphin :=
  (detach { sharedMemoryHandle := none, views := [], lowestAddress := lo,
            highestAddress := hi, pointerSize := 4, littleEndian := false }).1

/-- The `MemoryInformation` that `queryMemory` reports for a view. -/
def fillInfo (meminfo : MemoryInformation) (retView : MemoryView) : MemoryInformation :=
  { meminfo with
    isModule := false
    isCommitted := true
    isMirror := retView.details.isMirror
    allocationBase := retView.details.logicalBase
    allocationSize := retView.details.size
    allocationEnd := retView.details.logicalEnd
    isExecutable := false
    isWriteable := true }

/-- Function `ScannerTargetDolphin::queryMemory`: the returned flag, `meminfo` and `nextAdr`
after the call. Each of the two loops stops at the first view that passes its test. -/
def queryMemory (s : ScannerTargetDolphin) (adr : Nat) (meminfo : MemoryInformation) :
    Bool × MemoryInformation × Nat :=
  let retView :=
    match s.views.find? (fun view => view.containsAddress adr) with
    | some view => some view
    | none => s.views.find? (fun view => decide (adr < view.details.logicalBase))
  match retView with
  | some view =>
    let info := fillInfo meminfo view
    (true, info, info.allocationEnd)
  | none => (false, meminfo, s.highestAddress)

/-- The bytes `memcpy` reads from the segment: `n` bytes from segment offset `p`. -/
def readBytes (seg : Segment) (p n : Nat) : List UInt8 :=
  (List.range n).map (fun i => seg (p + i))

/-- Copying `src` over the start of the caller's buffer `dst`. -/
def copyToBuffer (dst src : List UInt8) : List UInt8 :=
  src ++ dst.drop src.length

/-- Copying the first `n` bytes of the caller's `data` into the segment at offset `p`. -/
def writeBytes (seg : Segment) (p : Nat) (data : List UInt8) (n : Nat) : Segment :=
  fun a => if p ≤ a ∧ a < p + n then data.getD (a - p) 0 else seg a

/-- The loop of `rawRead` over the remaining views. -/
def rawReadLoop (seg : Segment) (adr : Nat) (objectSize : Nat)
    (result : List UInt8) : List MemoryView → Bool × List UInt8
  | [] => (false, result)
  | view :: rest =>
    match view.getPointerToMemory adr with
    | some (memory, remaining) =>
      let memorySize := min objectSize remaining
      if memorySize = 0 then rawReadLoop seg adr objectSize result rest
      else (true, copyToBuffer result (readBytes seg memory memorySize))
    | none => rawReadLoop seg adr objectSize result rest

/-- Function `ScannerTargetDolphin::rawRead`: the returned flag and the caller's buffer
after the call. -/
def rawRead (s : ScannerTargetDolphin) (seg : Segment) (adr : Nat)
    (objectSize : Nat) (result : List UInt8) : Bool × List UInt8 :=
  rawReadLoop seg adr objectSize result s.views

/-- The loop of `rawWrite` over the remaining views. -/
def rawWriteLoop (seg : Segment) (adr : Nat) (objectSize : Nat)
    (data : List UInt8) : List MemoryView → Bool × Segment
  | [] => (false, seg)
  | view :: rest =>
    match view.getPointerToMemory adr with
    | some (memory, remaining) =>
      let memorySize := min objectSize remaining
      if memorySize = 0 then rawWriteLoop seg adr objectSize data rest
      else (true, writeBytes seg memory data memorySize)
    | none => rawWriteLoop seg adr objectSize data rest

/-- Function `ScannerTargetDolphin::rawWrite`: the returned flag and the segment after the
call. -/
def rawWrite (s : ScannerTargetDolphin) (seg : Segment) (adr : Nat)
    (objectSize : Nat) (data : List UInt8) : Bool × Segment :=
  rawWriteLoop seg adr objectSize data s.views

/-- The states a `ScannerTargetDolphin` object can be in: built by the constructor and then
driven by `attach` and `detach`, whatever the host answers. -/
inductive Reachable : ScannerTargetDolphin → Prop
  | construct (lo hi : Nat) : Reachable (construct lo hi)
  | attach {s : ScannerTargetDolphin} (host : Host) (pid : Nat) :
      Reachable s → Reachable (s.attach host pid).2.1
  | detach {s : ScannerTargetDolphin} : Reachable s → Reachable s.detach.1

/-- Modelled from the spec: the region enumeration loop of the callers,
`addr = lowestAddress(); while (queryMemory(addr, info, addr)) ...` (no caller is among
the sources). With `fuel` iterations allowed it yields the regions reported, or `none`
when the loop is still running after `fuel` queries. -/
def enumerate (s : ScannerTargetDolphin) :
    Nat → Nat → MemoryInformation → Option (List MemoryInformation)
  | 0, _, _ => none
  | fuel + 1, addr, info =>
    match s.queryMemory addr info with
    | (true, info1, next) => (enumerate s fuel next info1).map (fun l => info1 :: l)
    | (false, _, _) => some []

/-- A host on which every call of an attach succeeds. -/
def goodHost : Host := { shmHandle := some 1, viewMapped := fun _ => true }

/-- The target after a successful attach of a freshly constructed object. -/
def attachedTarget : ScannerTargetDolphin := ((construct 0 0).attach goodHost 0).2.1

/-- A `MemoryInformation` with every field cleared. -/
def blankInfo : MemoryInformation :=
  { allocationBase := 0, allocationSize := 0, allocationEnd := 0, isCommitted := false,
    isModule := false, isMirror := false, isMappedImage := false, isMapped := false,
    isWriteable := false, isExecutable := false }

/-- The views of an attached target: one per layout entry, each window starting at the
physical base of its entry. -/
def attachedViews : List MemoryView :=
  [{ details := Mem1CachedMap, buffer := some 0 }, { details := Mem1UncachedMap, buffer := some 0 }]

/-- A host on which the segment handle is obtained and no window can be mapped. -/
def noViewHost : Host := { shmHandle := some 1, viewMapped := fun _ => false }

/-- The target after a successful attach followed by a detach. -/
def detachedTarget : ScannerTargetDolphin := attachedTarget.detach.1

end ScannerTargetDolphin

open ScannerTargetDolphin

/-! ## ScanVariant type tags

The enumeration `ScanVariant::_ScanVariantType` of XenoScanEngine/ScanVariant.h. The tag type
`ScanVariantType` is `uint32_t`: a tag is a natural number and tag arithmetic is taken
modulo `2 ^ 32`. An enumerator without an initialiser is the previous one plus one. -/

namespace ScanVariant

@[simp] def SCAN_VARIANT_ALLTYPES_BEGIN : Nat := 0
@[simp] def SCAN_VARIANT_STRINGTYPES_BEGIN : Nat := SCAN_VARIANT_ALLTYPES_BEGIN
@[simp] def SCAN_VARIANT_ASCII_STRING : Nat := SCAN_VARIANT_STRINGTYPES_BEGIN
@[simp] def SCAN_VARIANT_WIDE_STRING : Nat := SCAN_VARIANT_ASCII_STRING + 1
@[simp] def SCAN_VARIANT_STRINGTYPES_END : Nat := SCAN_VARIANT_WIDE_STRING
@[simp] def SCAN_VARIANT_NUMERICTYPES_BEGIN : Nat := SCAN_VARIANT_STRINGTYPES_END + 1
@[simp] def SCAN_VARIANT_NUMERICTYPES_INFERABLE_BEGIN : Nat := SCAN_VARIANT_NUMERICTYPES_BEGIN
@[simp] def SCAN_VARIANT_UINT8 : Nat := SCAN_VARIANT_NUMERICTYPES_BEGIN
@[simp] def SCAN_VARIANT_INT8 : Nat := SCAN_VARIANT_UINT8 + 1
@[simp] def SCAN_VARIANT_UINT16 : Nat := SCAN_VARIANT_INT8 + 1
@[simp] def SCAN_VARIANT_INT16 : Nat := SCAN_VARIANT_UINT16 + 1
@[simp] def SCAN_VARIANT_UINT32 : Nat := SCAN_VARIANT_INT16 + 1
@[simp] def SCAN_VARIANT_INT32 : Nat := SCAN_VARIANT_UINT32 + 1
@[simp] def SCAN_VARIANT_UINT64 : Nat := SCAN_VARIANT_INT32 + 1
@[simp] def SCAN_VARIANT_INT64 : Nat := SCAN_VARIANT_UINT64 + 1
@[simp] def SCAN_VARIANT_DOUBLE : Nat := SCAN_VARIANT_INT64 + 1
@[simp] def SCAN_VARIANT_FLOAT : Nat := SCAN_VARIANT_DOUBLE + 1
@[simp] def SCAN_VARIANT_NUMERICTYPES_INFERABLE_END : Nat := SCAN_VARIANT_FLOAT
@[simp] def SCAN_VARIANT_FILETIME64 : Nat := SCAN_VARIANT_NUMERICTYPES_INFERABLE_END + 1
@[simp] def SCAN_VARIANT_TICKTIME32 : Nat := SCAN_VARIANT_FILETIME64 + 1
@[simp] def SCAN_VARIANT_NUMERICTYPES_END : Nat := SCAN_VARIANT_TICKTIME32
@[simp] def SCAN_VARIANT_ALLTYPES_END : Nat := SCAN_VARIANT_NUMERICTYPES_END
@[simp] def SCAN_VARIANT_STRUCTURE : Nat := SCAN_VARIANT_ALLTYPES_END + 1
@[simp] def SCAN_VARIANT_NULL : Nat := SCAN_VARIANT_STRUCTURE + 1
@[simp] def SCAN_VARIANT_RANGE_BEGIN : Nat := SCAN_VARIANT_NULL + 1
@[simp] def SCAN_VARIANT_RANGE_END : Nat :=
  SCAN_VARIANT_RANGE_BEGIN + (SCAN_VARIANT_NUMERICTYPES_END - SCAN_VARIANT_NUMERICTYPES_BEGIN)
@[simp] def SCAN_VARIANT_PLACEHOLDER_BEGIN : Nat := SCAN_VARIANT_RANGE_END + 1
@[simp] def SCAN_VARIANT_PLACEHOLDER_END : Nat :=
  SCAN_VARIANT_PLACEHOLDER_BEGIN +
    (SCAN_VARIANT_NUMERICTYPES_END - SCAN_VARIANT_NUMERICTYPES_BEGIN)

/-- Subtraction of `uint32_t` values. -/
def sub32 (a b : Nat) : Nat := (a + 2 ^ 32 - b % 2 ^ 32) % 2 ^ 32

/-- Addition of `uint32_t` values. -/
def add32 (a b : Nat) : Nat := (a + b) % 2 ^ 32

/-- Method `ScanVariant::isRange`; it reads only the tag `this->type`. -/
def isRange (type : Nat) : Bool :=
  decide (type ≥ SCAN_VARIANT_RANGE_BEGIN ∧ type ≤ SCAN_VARIANT_RANGE_END)

/-- Method `ScanVariant::isPlaceholder`; it reads only the tag `this->type`. -/
def isPlaceholder (type : Nat) : Bool :=
  decide (type ≥ SCAN_VARIANT_PLACEHOLDER_BEGIN ∧ type ≤ SCAN_VARIANT_PLACEHOLDER_END)

/-- Method `ScanVariant::getUnderlyingType`; it reads only the tag `this->type`. -/
def getUnderlyingType (type : Nat) : Nat :=
  if isRange type then
    add32 SCAN_VARIANT_NUMERICTYPES_BEGIN (sub32 type SCAN_VARIANT_RANGE_BEGIN)
  else if isPlaceholder type then
    add32 SCAN_VARIANT_NUMERICTYPES_BEGIN (sub32 type SCAN_VARIANT_PLACEHOLDER_BEGIN)
  else type

/-- The number of entries of the table `UnderlyingTypeTraits[SCAN_VARIANT_NULL + 1]`. -/
def UnderlyingTypeTraitsSize : Nat := SCAN_VARIANT_NULL + 1

end ScanVariant

/-! ## The scripting value and the opaque objects of LuaEngine.cpp -/

/-- Modelled from the spec: the integer type `LuaVariant::LuaVariantInt` (LuaVariant.h is not
among the sources). LuaEngine.cpp uses it as a C++ integer type (a local variable, a cast
target), so it is a machine integer of a fixed width; the width and the signedness are
not in the sources and are a parameter. -/
structure LuaIntFormat where
  bits : Nat
  signed : Bool
  bits_pos : 0 < bits

/-- The C++ conversion of an integer value to the integer type: reduced modulo
`2 ^ bits`, read in two's complement when the type is signed. -/
def LuaIntFormat.convert (f : LuaIntFormat) (a : Int) : Int :=
  if f.signed = true ∧ a % 2 ^ f.bits ≥ 2 ^ (f.bits - 1) then a % 2 ^ f.bits - 2 ^ f.bits
  else a % 2 ^ f.bits

/-- Modelled from the spec: class `LuaVariant` (LuaVariant.h is not among the sources), the
dynamic value of the scripting layer: empty, boolean, integer, floating number, string,
pointer, keyed map (`LuaVariantKTable`, a map from strings) and ordered list
(`LuaVariantITable`). A keyed map is the list of its entries, at most one per key, whose
order carries no meaning. A pointer is its address. An integer is a `LuaVariantInt`, a
machine integer of the format `LuaIntFormat`: the integers a scripting value can hold are
the ones `LuaIntFormat.holds` admits. A floating number is kept as the tag and the raw
payload of the scan value it was made from; its numerical value is not computed. -/
inductive LuaVariant where
  | nil
  | bool (value : Bool)
  | int (value : Int)
  | number (fromType : Nat) (raw : Nat)
  | string (value : String)
  | pointer (value : Nat)
  | ktable (value : List (String × LuaVariant))
  | itable (value : List LuaVariant)

/-- Modelled from the spec: `LuaVariant::getAsKTable`, which succeeds on a keyed map only. -/
def LuaVariant.getAsKTable : LuaVariant → Option (List (String × LuaVariant))
  | LuaVariant.ktable value => some value
  | _ => none

/-- Modelled from the spec: `LuaVariant::getAsITable`, which succeeds on an ordered list
only. -/
def LuaVariant.getAsITable : LuaVariant → Option (List LuaVariant)
  | LuaVariant.itable value => some value
  | _ => none

/-- Modelled from the spec: `LuaVariant::getAsString`, which succeeds on a string only. -/
def LuaVariant.getAsString : LuaVariant → Option String
  | LuaVariant.string value => some value
  | _ => none

/-- Modelled from the spec: `LuaVariant::getAsPointer`, which succeeds on a pointer only. -/
def LuaVariant.getAsPointer : LuaVariant → Option Nat
  | LuaVariant.pointer value => some value
  | _ => none

/-- Lookup `find(key)` in a keyed map: the value stored under the key, if any. -/
def ktableFind (t : List (String × LuaVariant)) (key : String) : Option LuaVariant :=
  (t.find? (fun e => e.1 == key)).map (fun e => e.2)

/-- Assignment `t[key] = value` in a keyed map: replaces the entry of the key or adds one. -/
def ktableSet (t : List (String × LuaVariant)) (key : String) (value : LuaVariant) :
    List (String × LuaVariant) :=
  if t.any (fun e => e.1 == key) then
    t.map (fun e => if e.1 == key then (key, value) else e)
  else t ++ [(key, value)]

namespace LuaEngine

/-- Function `LuaEngine::createLuaObject`. -/
def createLuaObject (typeName : String) (pointer : Nat) : LuaVariant :=
  let target : List (String × LuaVariant) := []
  let target1 := ktableSet target "objectType" (LuaVariant.string typeName)
  let target2 := ktableSet target1 "objectPointer" (LuaVariant.pointer pointer)
  LuaVariant.ktable target2

/-- Function `LuaEngine::getLuaObject`: the returned flag and the reference `pointer` after
the call; `pointer` is assigned by `getAsPointer` alone. -/
def getLuaObject (object : LuaVariant) (typeName : String) (pointer : Nat) : Bool × Nat :=
  match object.getAsKTable with
  | none => (false, pointer)
  | some res =>
    match ktableFind res "objectType" with
    | none => (false, pointer)
    | some it =>
      match it.getAsString with
      | none => (false, pointer)
      | some type =>
        if type ≠ typeName then (false, pointer)
        else
          match ktableFind res "objectPointer" with
          | none => (false, pointer)
          | some it2 =>
            match it2.getAsPointer with
            | none => (false, pointer)
            | some p => (true, p)

end LuaEngine

/-! ## Scan values and their conversion to and from the scripting value

Class `ScanVariant` is declared in XenoScanEngine/ScanVariant.h; its out-of-line members are
in ScanVariant.cpp, which is not among the sources, and are modelled from the spec. The
members `valueSize` and `searchContex` are recomputed by `setSizeAndValue` and
`prepareForSearch` and are read by none of the functions embedded here; they are left out
of the record. -/

/-- Record `ScanVariant`: the tag, the two strings, the children (`valueStruct`) and the
8-byte numeric union, kept as the unsigned value of the bytes the tag uses. -/
inductive ScanVariant where
  | mk (type : Nat) (valueAsciiString : String) (valueWideString : String)
      (valueStruct : List ScanVariant) (numericValue : Nat)

namespace ScanVariant

/-- Method `getType`. -/
def getType : ScanVariant → Nat
  | mk type _ _ _ _ => type

/-- Member `valueAsciiString`. -/
def valueAsciiString : ScanVariant → String
  | mk _ ascii _ _ _ => ascii

/-- Member `valueWideString`. -/
def valueWideString : ScanVariant → String
  | mk _ _ wide _ _ => wide

/-- Member `valueStruct`. -/
def valueStruct : ScanVariant → List ScanVariant
  | mk _ _ _ children _ => children

/-- Member `numericValue` (the numeric union). -/
def numericValue : ScanVariant → Nat
  | mk _ _ _ _ numeric => numeric

/-- Modelled from the spec: the trait predicate `isStringType` of the traits table entry
of an underlying tag (the table is in ScanVariant.cpp). -/
def isStringType (underlying : Nat) : Bool :=
  decide (SCAN_VARIANT_STRINGTYPES_BEGIN ≤ underlying ∧ underlying ≤ SCAN_VARIANT_STRINGTYPES_END)

/-- Modelled from the spec: the trait predicate `isNumericType` of the traits table entry
of an underlying tag (the table is in ScanVariant.cpp). -/
def isNumericType (underlying : Nat) : Bool :=
  decide (SCAN_VARIANT_NUMERICTYPES_BEGIN ≤ underlying ∧
    underlying ≤ SCAN_VARIANT_NUMERICTYPES_END)

/-- Modelled from the spec: the width in bits of the scalar of a numeric tag (8, 16, 32 or
64 by name; `FILETIME64` is 64 bits and `TICKTIME32` is 32 bits). -/
def typeBits (type : Nat) : Nat :=
  if type = SCAN_VARIANT_UINT8 ∨ type = SCAN_VARIANT_INT8 then 8
  else if type = SCAN_VARIANT_UINT16 ∨ type = SCAN_VARIANT_INT16 then 16
  else if type = SCAN_VARIANT_UINT32 ∨ type = SCAN_VARIANT_INT32 ∨
      type = SCAN_VARIANT_FLOAT ∨ type = SCAN_VARIANT_TICKTIME32 then 32
  else 64

/-- Whether the scalar of a tag is a signed integer. -/
def isSignedTag (type : Nat) : Bool :=
  decide (type = SCAN_VARIANT_INT8 ∨ type = SCAN_VARIANT_INT16 ∨ type = SCAN_VARIANT_INT32 ∨
    type = SCAN_VARIANT_INT64)

/-- The integer a payload stands for under an integer tag (two's complement when signed). -/
def typedValue (type : Nat) (raw : Nat) : Int :=
  let u : Int := ((raw % 2 ^ typeBits type : Nat) : Int)
  if isSignedTag type ∧ u ≥ 2 ^ (typeBits type - 1) then u - 2 ^ typeBits type else u

/-- Modelled from the spec: `isComposite`; structures and ranges alike expose their
children. -/
def isComposite (v : ScanVariant) : Bool :=
  decide (v.getType = SCAN_VARIANT_STRUCTURE) || isRange v.getType

/-- Modelled from the spec: `getCompositeValues`, the children. -/
def getCompositeValues (v : ScanVariant) : List ScanVariant := v.valueStruct

/-- Modelled from the spec: `toString` of a string value, the text it holds. -/
def toString (v : ScanVariant) : String :=
  if v.getType = SCAN_VARIANT_ASCII_STRING then v.valueAsciiString else v.valueWideString

/-- Modelled from the spec: the `getValue` overload of the scalar of tag `tag`, which
extracts the native scalar when the value has that tag. -/
def getValue (v : ScanVariant) (tag : Nat) : Option Int :=
  if v.getType = tag then some (typedValue tag v.numericValue) else none

/-- Modelled from the spec: the `getValue` overloads of `double` and `float`: the payload,
when the value has that tag. -/
def getValueFloating (v : ScanVariant) (tag : Nat) : Option Nat :=
  if v.getType = tag then some v.numericValue else none

end ScanVariant

namespace LuaEngine

/-- The inner `switch` of `getLuaVariantFromScanVariant` over the tag of a numeric value, in
the order of its `TYPE_TO_LUA_VARIANT` cases; a tag without a case, or a failed `getValue`,
leads to the final `return LuaVariant()`. The constructor `LuaVariant(value)` converts an
integer scalar to the integer type `LuaVariantInt`. -/
def numericToLuaVariant (fmt : LuaIntFormat) (v : ScanVariant) : LuaVariant :=
  let t := v.getType
  if t = ScanVariant.SCAN_VARIANT_DOUBLE ∨ t = ScanVariant.SCAN_VARIANT_FLOAT then
    match v.getValueFloating t with
    | some raw => LuaVariant.number t raw
    | none => LuaVariant.nil
  else if t = ScanVariant.SCAN_VARIANT_INT8 ∨ t = ScanVariant.SCAN_VARIANT_UINT8 ∨
      t = ScanVariant.SCAN_VARIANT_INT16 ∨ t = ScanVariant.SCAN_VARIANT_UINT16 ∨
      t = ScanVariant.SCAN_VARIANT_INT32 ∨ t = ScanVariant.SCAN_VARIANT_UINT32 ∨
      t = ScanVariant.SCAN_VARIANT_INT64 ∨ t = ScanVariant.SCAN_VARIANT_UINT64 then
    match v.getValue t with
    | some value => LuaVariant.int (fmt.convert value)
    | none => LuaVariant.nil
  else LuaVariant.nil

mutual

/-- Function `LuaEngine::getLuaVariantFromScanVariant`. -/
def getLuaVariantFromScanVariant (fmt : LuaIntFormat) : ScanVariant → LuaVariant
  | ScanVariant.mk type ascii wide children numeric =>
    if ScanVariant.isComposite (ScanVariant.mk type ascii wide children numeric) then
      LuaVariant.itable (getLuaVariantsFromScanVariants fmt children)
    else if ScanVariant.isStringType (ScanVariant.getUnderlyingType type) then
      LuaVariant.string (ScanVariant.toString (ScanVariant.mk type ascii wide children numeric))
    else if ScanVariant.isNumericType (ScanVariant.getUnderlyingType type) then
      numericToLuaVariant fmt (ScanVariant.mk type ascii wide children numeric)
    else LuaVariant.nil

/-- The loop of `getLuaVariantFromScanVariant` over the children of a composite value. -/
def getLuaVariantsFromScanVariants (fmt : LuaIntFormat) : List ScanVariant → List LuaVariant
  | [] => []
  | v :: rest =>
    getLuaVariantFromScanVariant fmt v :: getLuaVariantsFromScanVariants fmt rest

end

end LuaEngine

theorem detach_handle (s : ScannerTargetDolphin) : s.detach.1.sharedMemoryHandle = none := by
  unfold detach
  cases h : s.sharedMemoryHandle <;> simp [h]

theorem detach_views (s : ScannerTargetDolphin) : s.detach.1.views = [] := by
  unfold detach
  cases h : s.sharedMemoryHandle <;> simp [h]

theorem attach_of_attached (s : ScannerTargetDolphin) (host : Host) (pid : Nat)
    (h : s.isAttached = true) : s.attach host pid = (true, s, []) := by
  simp [attach, h]

/-- The four outcomes of `attach` on a detached target with no view. -/
theorem attach_detached (s : ScannerTargetDolphin) (host : Host) (pid : Nat)
    (hh : s.sharedMemoryHandle = none) (hv : s.views = []) :
    (host.shmHandle = none ∧
        s.attach host pid = (false, s, [HostCall.obtainSHMHandle none])) ∨
    (∃ h, host.shmHandle = some h ∧ host.viewMapped 0 = false ∧
        s.attach host pid =
          (false, { s with highestAddress := 0, lowestAddress := 0xFFFFFFFF },
            [HostCall.obtainSHMHandle (some h), HostCall.obtainView h 0 0x01800000 none,
             HostCall.releaseSHMHandle h])) ∨
    (∃ h, host.shmHandle = some h ∧ host.viewMapped 0 = true ∧ host.viewMapped 1 = false ∧
        s.attach host pid =
          (false, { s with highestAddress := 0x817FFFFF, lowestAddress := 0x80000000 },
            [HostCall.obtainSHMHandle (some h), HostCall.obtainView h 0 0x01800000 (some 0),
             HostCall.obtainView h 0 0x01800000 none, HostCall.releaseView 0,
             HostCall.releaseSHMHandle h])) ∨
    (∃ h, host.shmHandle = some h ∧ host.viewMapped 0 = true ∧ host.viewMapped 1 = true ∧
        s.attach host pid =
          (true, { s with sharedMemoryHandle := some h, views := attachedViews,
                          highestAddress := 0xC17FFFFF, lowestAddress := 0x80000000 },
            [HostCall.obtainSHMHandle (some h), HostCall.obtainView h 0 0x01800000 (some 0),
             HostCall.obtainView h 0 0x01800000 (some 0)])) := by
  obtain ⟨sh, vs, lo, hi, ps, le⟩ := s
  simp only at hh hv
  subst hh hv
  cases h0 : host.shmHandle with
  | none => left; simp [attach, isAttached, h0]
  | some h =>
    right
    cases h1 : host.viewMapped 0 with
    | false =>
      left
      refine ⟨h, rfl, rfl, ?_⟩
      simp [attach, isAttached, h0, attachLoop, MemoryLayout, obtainView, h1, detach,
        releaseViews, Mem1CachedMap, MemoryMapEntry.ctor]
    | true =>
      right
      cases h2 : host.viewMapped 1 with
      | false =>
        left
        refine ⟨h, rfl, rfl, rfl, ?_⟩
        simp [attach, isAttached, h0, attachLoop, MemoryLayout, obtainView, h1, h2, detach,
          releaseViews, Mem1CachedMap, Mem1UncachedMap, MemoryMapEntry.ctor,
          MemoryMapEntry.mirror]
      | true =>
        right
        refine ⟨h, rfl, rfl, rfl, ?_⟩
        simp [attach, isAttached, h0, attachLoop, MemoryLayout, obtainView, h1, h2,
          attachedViews, Mem1CachedMap, Mem1UncachedMap, MemoryMapEntry.ctor,
          MemoryMapEntry.mirror]

/-- Invariant of the reachable states: a target is either detached with no view, or
attached with exactly the views of the layout and the address bounds of the layout. -/
theorem reachable_inv (s : ScannerTargetDolphin) (hr : Reachable s) :
    (s.sharedMemoryHandle = none ∧ s.views = []) ∨
    (s.isAttached = true ∧ s.views = attachedViews ∧
      s.lowestAddress = 0x80000000 ∧ s.highestAddress = 0xC17FFFFF) := by
  induction hr with
  | construct lo hi => left; simp [construct, detach]
  | detach _ _ => left; exact ⟨detach_handle _, detach_views _⟩
  | @attach t host pid _ ih =>
    rcases ih with ⟨hh, hv⟩ | ⟨ha, hv, hlo, hhi⟩
    · rcases attach_detached t host pid hh hv with
        ⟨_, e⟩ | ⟨h, _, _, e⟩ | ⟨h, _, _, _, e⟩ | ⟨h, _, _, _, e⟩
      · left; rw [e]; exact ⟨hh, hv⟩
      · left; rw [e]; exact ⟨hh, hv⟩
      · left; rw [e]; exact ⟨hh, hv⟩
      · right; rw [e]; simp [isAttached]
    · right
      rw [attach_of_attached t host pid ha]
      exact ⟨ha, hv, hlo, hhi⟩

theorem reachable_attached (s : ScannerTargetDolphin) (hr : Reachable s)
    (ha : s.isAttached = true) :
    s.views = attachedViews ∧ s.lowestAddress = 0x80000000 ∧ s.highestAddress = 0xC17FFFFF := by
  rcases reachable_inv s hr with ⟨hh, _⟩ | ⟨_, h⟩
  · simp [isAttached, hh] at ha
  · exact h

theorem reachable_detached (s : ScannerTargetDolphin) (hr : Reachable s)
    (ha : s.isAttached = false) : s.sharedMemoryHandle = none ∧ s.views = [] := by
  rcases reachable_inv s hr with h | ⟨h, _⟩
  · exact h
  · rw [h] at ha; cases ha

theorem mem_attachedViews (view : MemoryView) (h : view ∈ attachedViews) :
    view = { details := Mem1CachedMap, buffer := some 0 } ∨
    view = { details := Mem1UncachedMap, buffer := some 0 } := by
  simpa [attachedViews] using h

/-- What `queryMemory` answers on the views of an attached target. -/
theorem queryMemory_attachedViews (s : ScannerTargetDolphin) (hv : s.views = attachedViews)
    (adr : Nat) (meminfo : MemoryInformation) :
    s.queryMemory adr meminfo =
      if 0x80000000 ≤ adr ∧ adr ≤ 0x817FFFFF then
        (true, fillInfo meminfo { details := Mem1CachedMap, buffer := some 0 }, 0x817FFFFF)
      else if 0xC0000000 ≤ adr ∧ adr ≤ 0xC17FFFFF then
        (true, fillInfo meminfo { details := Mem1UncachedMap, buffer := some 0 }, 0xC17FFFFF)
      else if adr < 0x80000000 then
        (true, fillInfo meminfo { details := Mem1CachedMap, buffer := some 0 }, 0x817FFFFF)
      else if adr < 0xC0000000 then
        (true, fillInfo meminfo { details := Mem1UncachedMap, buffer := some 0 }, 0xC17FFFFF)
      else (false, meminfo, s.highestAddress) := by
  unfold queryMemory
  rw [hv]
  simp only [attachedViews, List.find?, MemoryView.containsAddress, Mem1CachedMap,
    Mem1UncachedMap, MemoryMapEntry.ctor, MemoryMapEntry.mirror, fillInfo]
  by_cases h1 : 0x80000000 ≤ adr ∧ adr ≤ 0x817FFFFF
  · simp [h1]
  · by_cases h2 : 0xC0000000 ≤ adr ∧ adr ≤ 0xC17FFFFF
    · simp [h1, h2]
    · by_cases h3 : adr < 0x80000000
      · simp [h1, h2, h3]
      · by_cases h4 : adr < 0xC0000000
        · simp [h1, h2, h3, h4]
        · simp [h1, h2, h3, h4]

/-- What `getPointerToMemory` answers on the cached view. -/
theorem getPointerToMemory_cached (adr : Nat) :
    MemoryView.getPointerToMemory { details := Mem1CachedMap, buffer := some 0 } adr =
      if 0x80000000 ≤ adr ∧ adr ≤ 0x817FFFFF then
        some (adr - 0x80000000, 0x817FFFFF - adr + 1) else none := by
  simp [MemoryView.getPointerToMemory, MemoryView.containsAddress, Mem1CachedMap,
    MemoryMapEntry.ctor]

/-- What `getPointerToMemory` answers on the uncached mirror. -/
theorem getPointerToMemory_uncached (adr : Nat) :
    MemoryView.getPointerToMemory { details := Mem1UncachedMap, buffer := some 0 } adr =
      if 0xC0000000 ≤ adr ∧ adr ≤ 0xC17FFFFF then
        some (adr - 0xC0000000, 0xC17FFFFF - adr + 1) else none := by
  simp [MemoryView.getPointerToMemory, MemoryView.containsAddress, Mem1CachedMap,
    Mem1UncachedMap, MemoryMapEntry.ctor, MemoryMapEntry.mirror]

/-- What `rawRead` does on the views of an attached target. -/
theorem rawRead_attachedViews (s : ScannerTargetDolphin) (hv : s.views = attachedViews)
    (seg : Segment) (adr : Nat) (n : Nat) (buf : List UInt8) :
    s.rawRead seg adr n buf =
      if 0x80000000 ≤ adr ∧ adr ≤ 0x817FFFFF then
        (if min n (0x817FFFFF - adr + 1) = 0 then (false, buf)
         else (true, copyToBuffer buf
           (readBytes seg (adr - 0x80000000) (min n (0x817FFFFF - adr + 1)))))
      else if 0xC0000000 ≤ adr ∧ adr ≤ 0xC17FFFFF then
        (if min n (0xC17FFFFF - adr + 1) = 0 then (false, buf)
         else (true, copyToBuffer buf
           (readBytes seg (adr - 0xC0000000) (min n (0xC17FFFFF - adr + 1)))))
      else (false, buf) := by
  unfold rawRead
  rw [hv]
  simp only [attachedViews, rawReadLoop, getPointerToMemory_cached,
    getPointerToMemory_uncached]
  by_cases h1 : 0x80000000 ≤ adr ∧ adr ≤ 0x817FFFFF
  · have h2 : ¬ (0xC0000000 ≤ adr ∧ adr ≤ 0xC17FFFFF) := by omega
    simp only [h1, h2, and_self, if_true, if_false]
  · by_cases h2 : 0xC0000000 ≤ adr ∧ adr ≤ 0xC17FFFFF
    · simp only [h1, h2, and_self, if_true, if_false]
    · simp only [h1, h2, if_false]

/-- What `rawWrite` does on the views of an attached target. -/
theorem rawWrite_attachedViews (s : ScannerTargetDolphin) (hv : s.views = attachedViews)
    (seg : Segment) (adr : Nat) (n : Nat) (data : List UInt8) :
    s.rawWrite seg adr n data =
      if 0x80000000 ≤ adr ∧ adr ≤ 0x817FFFFF then
        (if min n (0x817FFFFF - adr + 1) = 0 then (false, seg)
         else (true, writeBytes seg (adr - 0x80000000) data (min n (0x817FFFFF - adr + 1))))
      else if 0xC0000000 ≤ adr ∧ adr ≤ 0xC17FFFFF then
        (if min n (0xC17FFFFF - adr + 1) = 0 then (false, seg)
         else (true, writeBytes seg (adr - 0xC0000000) data (min n (0xC17FFFFF - adr + 1))))
      else (false, seg) := by
  unfold rawWrite
  rw [hv]
  simp only [attachedViews, rawWriteLoop, getPointerToMemory_cached,
    getPointerToMemory_uncached]
  by_cases h1 : 0x80000000 ≤ adr ∧ adr ≤ 0x817FFFFF
  · have h2 : ¬ (0xC0000000 ≤ adr ∧ adr ≤ 0xC17FFFFF) := by omega
    simp only [h1, h2, and_self, if_true, if_false]
  · by_cases h2 : 0xC0000000 ≤ adr ∧ adr ≤ 0xC17FFFFF
    · simp only [h1, h2, and_self, if_true, if_false]
    · simp only [h1, h2, if_false]

theorem readBytes_length (seg : Segment) (p n : Nat) : (readBytes seg p n).length = n := by
  simp [readBytes]

/-- Reading back the bytes just written yields the data written. -/
theorem readBytes_writeBytes (seg : Segment) (p : Nat) (data : List UInt8) :
    readBytes (writeBytes seg p data data.length) p data.length = data := by
  apply List.ext_getElem
  · simp [readBytes]
  · intro i h1 h2
    simp [readBytes] at h1
    simp [readBytes, writeBytes, h1, List.getD_eq_getElem?_getD, List.getElem?_eq_getElem h2]

theorem reachable_attachedTarget : Reachable attachedTarget :=
  Reachable.attach goodHost 0 (Reachable.construct 0 0)

theorem isAttached_attachedTarget : attachedTarget.isAttached = true := by decide

theorem views_attachedTarget : attachedTarget.views = attachedViews := by decide

/-- A query at the last address of the cached view answers that same address again, so
the enumeration loop makes no progress from there. -/
theorem enumerate_stuck (s : ScannerTargetDolphin) (hv : s.views = attachedViews)
    (fuel : Nat) (info : MemoryInformation) : enumerate s fuel 0x817FFFFF info = none := by
  induction fuel generalizing info with
  | zero => rfl
  | succ k ih =>
    unfold enumerate
    rw [queryMemory_attachedViews s hv]
    simp [ih]

/-! ## Region enumeration -/

/-- C1: on an attached target, the successful query at `lowestAddress` returns
`nextAdr = info.allocationEnd`, the last address of the region and not an address past it;
a query at that address succeeds again with the same answer, and the enumeration loop
`addr = lowestAddress(); while (queryMemory(addr, info, addr)) ...` is still running after
any number of queries. -/
theorem queryMemory_next_not_past_allocationEnd :
    Reachable attachedTarget ∧ attachedTarget.isAttached = true ∧
    attachedTarget.lowestAddress = 0x80000000 ∧
    (attachedTarget.queryMemory 0x80000000 blankInfo).1 = true ∧
    (attachedTarget.queryMemory 0x80000000 blankInfo).2.1.allocationEnd = 0x817FFFFF ∧
    (attachedTarget.queryMemory 0x80000000 blankInfo).2.2 = 0x817FFFFF ∧
    ¬ ((attachedTarget.queryMemory 0x80000000 blankInfo).2.2 >
        (attachedTarget.queryMemory 0x80000000 blankInfo).2.1.allocationEnd) ∧
    (attachedTarget.queryMemory 0x817FFFFF blankInfo).1 = true ∧
    (attachedTarget.queryMemory 0x817FFFFF blankInfo).2.2 = 0x817FFFFF ∧
    ∀ fuel : Nat, enumerate attachedTarget fuel attachedTarget.lowestAddress blankInfo = none := by
  refine ⟨reachable_attachedTarget, by decide, by decide, by decide, by decide, by decide,
    by decide, by decide, by decide, ?_⟩
  intro fuel
  cases fuel with
  | zero => rfl
  | succ k =>
    have hlo : attachedTarget.lowestAddress = 0x80000000 := by decide
    rw [hlo]
    unfold enumerate
    rw [queryMemory_attachedViews _ views_attachedTarget]
    simp [enumerate_stuck _ views_attachedTarget]

/-! ## The memory layout -/

/-- C3, as stated: the layout is not a cached view with logical base `0x00000000` followed by
its mirror at `0xC0000000`; the first argument of the entry, `0x00000000`, is its physical
base. -/
theorem layout_first_logicalBase_not_zero :
    ¬ (∃ e1 e2 : MemoryMapEntry, MemoryLayout = [e1, e2] ∧
        e1.logicalBase = 0x00000000 ∧ e2.logicalBase = 0xC0000000 ∧
        e2.physicalBase = e1.physicalBase ∧ e2.size = e1.size ∧ e1.size = 0x01800000 ∧
        e2.isMirror = true ∧ e1.isMirror = false) := by
  rintro ⟨e1, e2, h, h1, -⟩
  simp [MemoryLayout] at h
  have : e1.logicalBase = 0x80000000 := by rw [← h.1]; rfl
  omega

/-- C3, amended: the layout has exactly two entries, the cached view with physical base
`0x00000000` and logical base `0x80000000`, and the uncached mirror with logical base
`0xC0000000`; the mirror has the physical base and the size (`0x01800000`) of the cached
view and is flagged as a mirror, the cached view is not; each ends at
`logicalBase + size - 1`. -/
theorem layout_entries :
    MemoryLayout = [Mem1CachedMap, Mem1UncachedMap] ∧ MemoryLayout.length = 2 ∧
    Mem1CachedMap.physicalBase = 0x00000000 ∧ Mem1CachedMap.logicalBase = 0x80000000 ∧
    Mem1CachedMap.size = 0x01800000 ∧ Mem1CachedMap.logicalEnd = 0x817FFFFF ∧
    Mem1CachedMap.isMirror = false ∧
    Mem1UncachedMap.logicalBase = 0xC0000000 ∧
    Mem1UncachedMap.physicalBase = Mem1CachedMap.physicalBase ∧
    Mem1UncachedMap.size = Mem1CachedMap.size ∧ Mem1UncachedMap.logicalEnd = 0xC17FFFFF ∧
    Mem1UncachedMap.isMirror = true := by
  decide

/-! ## queryMemory -/

/-- C4: on an attached target, a query at an address inside a view succeeds and reports
that view: its base, size and end (`logicalBase + size - 1`), committed, writeable, not
executable, not a module, and the mirror flag of the entry. -/
theorem queryMemory_inside_view (s : ScannerTargetDolphin) (hr : Reachable s)
    (ha : s.isAttached = true) (view : MemoryView) (hv : view ∈ s.views)
    (adr : Nat)
    (hin : view.details.logicalBase ≤ adr ∧ adr ≤ view.details.logicalEnd)
    (meminfo : MemoryInformation) :
    (s.queryMemory adr meminfo).1 = true ∧
    (s.queryMemory adr meminfo).2.1.allocationBase = view.details.logicalBase ∧
    (s.queryMemory adr meminfo).2.1.allocationSize = view.details.size ∧
    (s.queryMemory adr meminfo).2.1.allocationEnd = view.details.logicalEnd ∧
    view.details.logicalEnd = view.details.logicalBase + view.details.size - 1 ∧
    (s.queryMemory adr meminfo).2.1.isCommitted = true ∧
    (s.queryMemory adr meminfo).2.1.isWriteable = true ∧
    (s.queryMemory adr meminfo).2.1.isExecutable = false ∧
    (s.queryMemory adr meminfo).2.1.isModule = false ∧
    (s.queryMemory adr meminfo).2.1.isMirror = view.details.isMirror := by
  obtain ⟨hviews, -, -⟩ := reachable_attached s hr ha
  rw [queryMemory_attachedViews s hviews]
  rw [hviews] at hv
  rcases mem_attachedViews view hv with rfl | rfl
  · have h1 : 0x80000000 ≤ adr ∧ adr ≤ 0x817FFFFF := by
      simpa [Mem1CachedMap, MemoryMapEntry.ctor] using hin
    rw [if_pos h1]
    simp [fillInfo, Mem1CachedMap, MemoryMapEntry.ctor]
  · have h2 : 0xC0000000 ≤ adr ∧ adr ≤ 0xC17FFFFF := by
      simpa [Mem1CachedMap, Mem1UncachedMap, MemoryMapEntry.ctor, MemoryMapEntry.mirror]
        using hin
    have h1 : ¬ (0x80000000 ≤ adr ∧ adr ≤ 0x817FFFFF) := by omega
    rw [if_neg h1, if_pos h2]
    simp [fillInfo, Mem1CachedMap, Mem1UncachedMap, MemoryMapEntry.ctor,
      MemoryMapEntry.mirror]

/-- The query at `0xC0000100` on an attached target reports the uncached mirror. -/
theorem queryMemory_inside_view_witness :
    (attachedTarget.queryMemory 0xC0000100 blankInfo).1 = true ∧
    (attachedTarget.queryMemory 0xC0000100 blankInfo).2.1.allocationBase = 0xC0000000 :=
  have h := queryMemory_inside_view attachedTarget reachable_attachedTarget (by decide)
    { details := Mem1UncachedMap, buffer := some 0 } (by decide) 0xC0000100
    (by decide) blankInfo
  ⟨h.1, h.2.1⟩

theorem reachable_detachedTarget : Reachable detachedTarget :=
  Reachable.detach reachable_attachedTarget

/-- C6, as stated: a detached target (attached once, then detached) on which the handle is
obtained and the first window cannot be mapped. `attach` returns false, and both address
bounds differ from their values before the call. -/
theorem attach_failure_overwrites_bounds :
    Reachable detachedTarget ∧ detachedTarget.isAttached = false ∧
    (detachedTarget.attach noViewHost 0).1 = false ∧
    detachedTarget.lowestAddress = 0x80000000 ∧
    detachedTarget.highestAddress = 0xC17FFFFF ∧
    (detachedTarget.attach noViewHost 0).2.1.lowestAddress = 0xFFFFFFFF ∧
    (detachedTarget.attach noViewHost 0).2.1.highestAddress = 0 ∧
    (detachedTarget.attach noViewHost 0).2.1 ≠ detachedTarget := by
  refine ⟨reachable_detachedTarget, by decide, by decide, by decide, by decide, by decide,
    by decide, by decide⟩

/-- C6, amended: whatever the host answers, when `attach` returns false the target is not
attached afterwards, its handle is null and it has no view, as before the call; the
pointer size and the byte order are unchanged; every window and every handle obtained
during the call has been released; and when the handle itself could not be obtained the
whole state is the one before the call. (The address bounds are not part of the
statement.) -/
theorem attach_failure_detached (s : ScannerTargetDolphin) (hr : Reachable s) (host : Host)
    (pid : Nat) (hf : (s.attach host pid).1 = false) :
    (s.attach host pid).2.1.isAttached = false ∧
    (s.attach host pid).2.1.sharedMemoryHandle = none ∧
    (s.attach host pid).2.1.views = [] ∧
    (s.attach host pid).2.1.sharedMemoryHandle = s.sharedMemoryHandle ∧
    (s.attach host pid).2.1.views = s.views ∧
    (s.attach host pid).2.1.pointerSize = s.pointerSize ∧
    (s.attach host pid).2.1.littleEndian = s.littleEndian ∧
    releasedViews (s.attach host pid).2.2 = obtainedViews (s.attach host pid).2.2 ∧
    releasedHandles (s.attach host pid).2.2 = obtainedHandles (s.attach host pid).2.2 ∧
    (host.shmHandle = none → (s.attach host pid).2.1 = s) := by
  cases ha : s.isAttached with
  | true => rw [attach_of_attached s host pid ha] at hf; cases hf
  | false =>
    obtain ⟨hh, hv⟩ := reachable_detached s hr ha
    rcases attach_detached s host pid hh hv with
      ⟨h0, e⟩ | ⟨h, h0, _, e⟩ | ⟨h, h0, _, _, e⟩ | ⟨h, h0, _, _, e⟩
    · rw [e]
      simp [isAttached, hh, hv, releasedViews, obtainedViews, releasedHandles,
        obtainedHandles]
    · rw [e]
      simp [isAttached, hh, hv, h0, releasedViews, obtainedViews, releasedHandles,
        obtainedHandles]
    · rw [e]
      simp [isAttached, hh, hv, h0, releasedViews, obtainedViews, releasedHandles,
        obtainedHandles]
    · rw [e] at hf; cases hf

/-- A failed attach of a detached target on a host that maps no window. -/
theorem attach_failure_detached_witness :
    (detachedTarget.attach noViewHost 0).2.1.isAttached = false ∧
    (detachedTarget.attach noViewHost 0).2.1.views = [] :=
  have h := attach_failure_detached detachedTarget reachable_detachedTarget noViewHost 0
    (by decide)
  ⟨h.1, h.2.2.1⟩

/-- C7: `attach` on a target that is already attached returns true, leaves the whole state
unchanged and makes no host call (no handle is obtained, no window is mapped), whatever
the process identifier and whatever the host would answer. -/
theorem attach_idempotent (s : ScannerTargetDolphin) (host : Host) (pid : Nat)
    (ha : s.isAttached = true) : s.attach host pid = (true, s, []) := by
  simp [attach, ha]

/-- Attaching an attached target again, on a host that would map no window. -/
theorem attach_idempotent_witness :
    attachedTarget.attach noViewHost 7 = (true, attachedTarget, []) :=
  attach_idempotent attachedTarget noViewHost 7 (by decide)

/-- C8: after a successful `attach` of a detached target, the views are one per layout
entry in layout order, each with the window mapped at the physical base of its entry;
`lowestAddress` is the least `logicalBase` of the views and `highestAddress` is the greatest
`logicalEnd` of the views, where `logicalEnd = logicalBase + size - 1`. -/
theorem attach_success_views (s : ScannerTargetDolphin) (hr : Reachable s)
    (hd : s.isAttached = false) (host : Host) (pid : Nat)
    (hok : (s.attach host pid).1 = true) :
    (s.attach host pid).2.1.isAttached = true ∧
    (s.attach host pid).2.1.views =
      MemoryLayout.map (fun e => { details := e, buffer := some e.physicalBase }) ∧
    (s.attach host pid).2.1.views.map (fun v => v.details) = MemoryLayout ∧
    (∃ v ∈ (s.attach host pid).2.1.views,
      (s.attach host pid).2.1.lowestAddress = v.details.logicalBase) ∧
    (∀ v ∈ (s.attach host pid).2.1.views,
      (s.attach host pid).2.1.lowestAddress ≤ v.details.logicalBase) ∧
    (∃ v ∈ (s.attach host pid).2.1.views,
      (s.attach host pid).2.1.highestAddress = v.details.logicalEnd) ∧
    (∀ v ∈ (s.attach host pid).2.1.views,
      v.details.logicalEnd ≤ (s.attach host pid).2.1.highestAddress) ∧
    (∀ v ∈ (s.attach host pid).2.1.views,
      v.details.logicalEnd = v.details.logicalBase + v.details.size - 1) := by
  obtain ⟨hh, hv⟩ := reachable_detached s hr hd
  rcases attach_detached s host pid hh hv with
    ⟨_, e⟩ | ⟨h, _, _, e⟩ | ⟨h, _, _, _, e⟩ | ⟨h, _, _, _, e⟩
  · rw [e] at hok; cases hok
  · rw [e] at hok; cases hok
  · rw [e] at hok; cases hok
  · rw [e]
    simp [isAttached, attachedViews, MemoryLayout, Mem1CachedMap, Mem1UncachedMap,
      MemoryMapEntry.ctor, MemoryMapEntry.mirror]

/-- The attach of a freshly constructed target on a host where every call succeeds. -/
theorem attach_success_views_witness :
    ((construct 0 0).attach goodHost 0).2.1.views.map (fun v => v.details) = MemoryLayout ∧
    ∀ v ∈ ((construct 0 0).attach goodHost 0).2.1.views,
      ((construct 0 0).attach goodHost 0).2.1.lowestAddress ≤ v.details.logicalBase :=
  have h := attach_success_views (construct 0 0) (Reachable.construct 0 0) (by decide)
    goodHost 0 (by decide)
  ⟨h.2.2.1, h.2.2.2.2.1⟩

/-- The two outcomes of the copy in `rawRead`, as one pair. -/
theorem rawRead_copy (seg : Segment) (p m : Nat) (buf : List UInt8) :
    (if m = 0 then (false, buf) else (true, copyToBuffer buf (readBytes seg p m))) =
      (decide (0 < m), readBytes seg p m ++ buf.drop m) := by
  by_cases hm : m = 0
  · subst hm; simp [readBytes]
  · have : 0 < m := Nat.pos_of_ne_zero hm
    simp [hm, this, copyToBuffer, readBytes_length]

/-! ## rawRead and rawWrite -/

/-- C2: mirror aliasing. On an attached target, for an offset `o` and a length `n > 0` with
`o + n ≤ 0x01800000` and `n` bytes `b`, writing `b` at `0x80000000 + o` succeeds and reading
`n` bytes at `0xC0000000 + o` afterwards succeeds and puts exactly `b` at the start of the
buffer (the rest of a longer buffer is untouched); the same with the two bases exchanged. -/
theorem mirror_aliasing (s : ScannerTargetDolphin) (hr : Reachable s)
    (ha : s.isAttached = true) (seg : Segment) (o n : Nat) (b buf : List UInt8)
    (hn : 0 < n) (hon : o + n ≤ 0x01800000) (hb : b.length = n) :
    ((s.rawWrite seg (0x80000000 + o) n b).1 = true ∧
      s.rawRead (s.rawWrite seg (0x80000000 + o) n b).2 (0xC0000000 + o) n buf =
        (true, b ++ buf.drop n)) ∧
    ((s.rawWrite seg (0xC0000000 + o) n b).1 = true ∧
      s.rawRead (s.rawWrite seg (0xC0000000 + o) n b).2 (0x80000000 + o) n buf =
        (true, b ++ buf.drop n)) := by
  obtain ⟨hviews, -, -⟩ := reachable_attached s hr ha
  subst hb
  have c1 : 0x80000000 ≤ 0x80000000 + o ∧ 0x80000000 + o ≤ 0x817FFFFF := by omega
  have c2 : 0xC0000000 ≤ 0xC0000000 + o ∧ 0xC0000000 + o ≤ 0xC17FFFFF := by omega
  have n2 : ¬ (0x80000000 ≤ 0xC0000000 + o ∧ 0xC0000000 + o ≤ 0x817FFFFF) := by omega
  have m1 : min b.length (0x817FFFFF - (0x80000000 + o) + 1) = b.length := by omega
  have m2 : min b.length (0xC17FFFFF - (0xC0000000 + o) + 1) = b.length := by omega
  have z : ¬ b.length = 0 := by omega
  have o1 : 0x80000000 + o - 0x80000000 = o := by omega
  have o2 : 0xC0000000 + o - 0xC0000000 = o := by omega
  simp only [rawWrite_attachedViews s hviews, rawRead_attachedViews s hviews, if_pos c1,
    if_neg n2, if_pos c2, m1, m2, if_neg z, o1, o2, readBytes_writeBytes, copyToBuffer,
    and_self]

/-- Four bytes written at offset `0x100` of one view and read back through the other. -/
theorem mirror_aliasing_witness :
    ((attachedTarget.rawWrite (fun _ => 0) (0x80000000 + 0x100) 4 [1, 2, 3, 4]).1 = true ∧
      attachedTarget.rawRead
        (attachedTarget.rawWrite (fun _ => 0) (0x80000000 + 0x100) 4 [1, 2, 3, 4]).2
        (0xC0000000 + 0x100) 4 [0, 0, 0, 0] = (true, [1, 2, 3, 4] ++ [0, 0, 0, 0].drop 4)) ∧
    ((attachedTarget.rawWrite (fun _ => 0) (0xC0000000 + 0x100) 4 [1, 2, 3, 4]).1 = true ∧
      attachedTarget.rawRead
        (attachedTarget.rawWrite (fun _ => 0) (0xC0000000 + 0x100) 4 [1, 2, 3, 4]).2
        (0x80000000 + 0x100) 4 [0, 0, 0, 0] = (true, [1, 2, 3, 4] ++ [0, 0, 0, 0].drop 4)) :=
  mirror_aliasing attachedTarget reachable_attachedTarget (by decide) (fun _ => 0) 0x100 4
    [1, 2, 3, 4] [0, 0, 0, 0] (by decide) (by decide) (by decide)

/-- C9: on an attached target, for an address inside a view, `rawRead` copies exactly
`min n remaining` bytes, where `remaining` counts the bytes from the address to the end of
the view: these bytes replace the start of the buffer and the rest of the buffer is
untouched; the bytes read lie inside the window of the view; the result is true exactly
when at least one byte was copied, hence false for `n = 0`. For an address in no view
nothing is copied and the result is false. -/
theorem rawRead_truncates (s : ScannerTargetDolphin) (hr : Reachable s)
    (ha : s.isAttached = true) (seg : Segment) (adr n : Nat) (buf : List UInt8) :
    (∀ view ∈ s.views, view.details.logicalBase ≤ adr ∧ adr ≤ view.details.logicalEnd →
      s.rawRead seg adr n buf =
        (decide (0 < min n (view.details.logicalEnd - adr + 1)),
          readBytes seg (view.details.physicalBase + (adr - view.details.logicalBase))
              (min n (view.details.logicalEnd - adr + 1)) ++
            buf.drop (min n (view.details.logicalEnd - adr + 1))) ∧
      (readBytes seg (view.details.physicalBase + (adr - view.details.logicalBase))
        (min n (view.details.logicalEnd - adr + 1))).length =
          min n (view.details.logicalEnd - adr + 1) ∧
      view.details.physicalBase + (adr - view.details.logicalBase) +
          min n (view.details.logicalEnd - adr + 1) ≤
        view.details.physicalBase + view.details.size ∧
      (n = 0 → (s.rawRead seg adr n buf).1 = false)) ∧
    ((∀ view ∈ s.views,
        ¬ (view.details.logicalBase ≤ adr ∧ adr ≤ view.details.logicalEnd)) →
      s.rawRead seg adr n buf = (false, buf)) := by
  obtain ⟨hviews, -, -⟩ := reachable_attached s hr ha
  rw [rawRead_attachedViews s hviews, hviews]
  constructor
  · intro view hv hin
    rcases mem_attachedViews view hv with rfl | rfl
    · have h1 : 0x80000000 ≤ adr ∧ adr ≤ 0x817FFFFF := by
        simpa [Mem1CachedMap, MemoryMapEntry.ctor] using hin
      clear hin
      simp only [Mem1CachedMap, MemoryMapEntry.ctor, if_pos h1, readBytes_length,
        Nat.zero_add, rawRead_copy, true_and]
      refine ⟨by omega, ?_⟩
      intro hz
      subst hz
      simp
    · have h2 : 0xC0000000 ≤ adr ∧ adr ≤ 0xC17FFFFF := by
        simpa [Mem1CachedMap, Mem1UncachedMap, MemoryMapEntry.ctor, MemoryMapEntry.mirror]
          using hin
      clear hin
      have h1 : ¬ (0x80000000 ≤ adr ∧ adr ≤ 0x817FFFFF) := by omega
      simp only [Mem1CachedMap, Mem1UncachedMap, MemoryMapEntry.ctor, MemoryMapEntry.mirror,
        if_neg h1, if_pos h2, readBytes_length, Nat.zero_add, rawRead_copy, true_and]
      refine ⟨by omega, ?_⟩
      intro hz
      subst hz
      simp
  · intro hout
    have h1 : ¬ (0x80000000 ≤ adr ∧ adr ≤ 0x817FFFFF) := by
      simpa [Mem1CachedMap, MemoryMapEntry.ctor] using
        hout { details := Mem1CachedMap, buffer := some 0 } (by simp [attachedViews])
    have h2 : ¬ (0xC0000000 ≤ adr ∧ adr ≤ 0xC17FFFFF) := by
      simpa [Mem1CachedMap, Mem1UncachedMap, MemoryMapEntry.ctor, MemoryMapEntry.mirror] using
        hout { details := Mem1UncachedMap, buffer := some 0 } (by simp [attachedViews])
    rw [if_neg h1, if_neg h2]

/-- A read of four bytes that starts two bytes before the end of the cached view. -/
theorem rawRead_truncates_witness :
    attachedTarget.rawRead (fun _ => 7) 0x817FFFFE 4 [0, 0, 0, 0] =
      (decide (0 < min 4 (0x817FFFFF - 0x817FFFFE + 1)),
        readBytes (fun _ => 7) (0 + (0x817FFFFE - 0x80000000))
            (min 4 (0x817FFFFF - 0x817FFFFE + 1)) ++
          [0, 0, 0, 0].drop (min 4 (0x817FFFFF - 0x817FFFFE + 1))) :=
  ((rawRead_truncates attachedTarget reachable_attachedTarget (by decide) (fun _ => 7)
    0x817FFFFE 4 [0, 0, 0, 0]).1 { details := Mem1CachedMap, buffer := some 0 }
    (by decide) (by decide)).1

/-- C10: on an attached target, for an address outside every view, `rawRead` and `rawWrite`
return false for every size, `rawRead` leaves the buffer as it was and `rawWrite` leaves
the segment as it was. When `rawWrite` succeeds, the address lies in a view and no byte of
the segment changes outside the `min n remaining` bytes that start at the byte the
address designates. -/
theorem rawAccess_outside_views (s : ScannerTargetDolphin) (hr : Reachable s)
    (ha : s.isAttached = true) (seg : Segment) (adr n : Nat) (buf data : List UInt8) :
    ((∀ view ∈ s.views,
        ¬ (view.details.logicalBase ≤ adr ∧ adr ≤ view.details.logicalEnd)) →
      s.rawRead seg adr n buf = (false, buf) ∧ s.rawWrite seg adr n data = (false, seg)) ∧
    ((s.rawWrite seg adr n data).1 = true →
      ∃ view ∈ s.views,
        (view.details.logicalBase ≤ adr ∧ adr ≤ view.details.logicalEnd) ∧
        ∀ a : Nat,
          ¬ (view.details.physicalBase + (adr - view.details.logicalBase) ≤ a ∧
              a < view.details.physicalBase + (adr - view.details.logicalBase) +
                min n (view.details.logicalEnd - adr + 1)) →
          (s.rawWrite seg adr n data).2 a = seg a) := by
  obtain ⟨hviews, -, -⟩ := reachable_attached s hr ha
  rw [rawRead_attachedViews s hviews, rawWrite_attachedViews s hviews, hviews]
  constructor
  · intro hout
    have h1 : ¬ (0x80000000 ≤ adr ∧ adr ≤ 0x817FFFFF) := by
      simpa [Mem1CachedMap, MemoryMapEntry.ctor] using
        hout { details := Mem1CachedMap, buffer := some 0 } (by simp [attachedViews])
    have h2 : ¬ (0xC0000000 ≤ adr ∧ adr ≤ 0xC17FFFFF) := by
      simpa [Mem1CachedMap, Mem1UncachedMap, MemoryMapEntry.ctor, MemoryMapEntry.mirror] using
        hout { details := Mem1UncachedMap, buffer := some 0 } (by simp [attachedViews])
    simp only [if_neg h1, if_neg h2, and_self]
  · intro hw
    by_cases h1 : 0x80000000 ≤ adr ∧ adr ≤ 0x817FFFFF
    · refine ⟨{ details := Mem1CachedMap, buffer := some 0 }, by simp [attachedViews], ?_, ?_⟩
      · simpa [Mem1CachedMap, MemoryMapEntry.ctor] using h1
      · intro a hna
        simp only [Mem1CachedMap, MemoryMapEntry.ctor, Nat.zero_add] at hna
        norm_num at hna
        rw [if_pos h1] at hw ⊢
        by_cases hm : min n (0x817FFFFF - adr + 1) = 0
        · rw [if_pos hm]
        · rw [if_neg hm]
          simp only [writeBytes]
          rw [if_neg]
          intro hc
          omega
    · by_cases h2 : 0xC0000000 ≤ adr ∧ adr ≤ 0xC17FFFFF
      · refine ⟨{ details := Mem1UncachedMap, buffer := some 0 }, by simp [attachedViews],
          ?_, ?_⟩
        · simpa [Mem1CachedMap, Mem1UncachedMap, MemoryMapEntry.ctor, MemoryMapEntry.mirror]
            using h2
        · intro a hna
          simp only [Mem1CachedMap, Mem1UncachedMap, MemoryMapEntry.ctor,
            MemoryMapEntry.mirror, Nat.zero_add] at hna
          norm_num at hna
          rw [if_neg h1, if_pos h2] at hw ⊢
          by_cases hm : min n (0xC17FFFFF - adr + 1) = 0
          · rw [if_pos hm]
          · rw [if_neg hm]
            simp only [writeBytes]
            rw [if_neg]
            intro hc
            omega
      · rw [if_neg h1, if_neg h2] at hw
        cases hw

/-- A read and a write at `0x90000000`, an address in no view. -/
theorem rawAccess_outside_views_witness :
    attachedTarget.rawRead (fun _ => 7) 0x90000000 4 [0, 0, 0, 0] = (false, [0, 0, 0, 0]) ∧
    attachedTarget.rawWrite (fun _ => 7) 0x90000000 4 [1, 2, 3, 4] = (false, fun _ => 7) :=
  (rawAccess_outside_views attachedTarget reachable_attachedTarget (by decide) (fun _ => 7)
    0x90000000 4 [0, 0, 0, 0] [1, 2, 3, 4]).1 (by decide)

/-! ## ScanVariant type tags -/

theorem getUnderlyingType_range (t : Nat) (h1 : 16 ≤ t) (h2 : t ≤ 27) :
    ScanVariant.getUnderlyingType t = t - 14 := by
  simp [ScanVariant.getUnderlyingType, ScanVariant.isRange, ScanVariant.add32,
    ScanVariant.sub32, h1, h2]
  omega

theorem getUnderlyingType_placeholder (t : Nat) (h1 : 28 ≤ t) (h2 : t ≤ 39) :
    ScanVariant.getUnderlyingType t = t - 26 := by
  have h3 : ¬ (16 ≤ t ∧ t ≤ 27) := by omega
  simp [ScanVariant.getUnderlyingType, ScanVariant.isRange, ScanVariant.isPlaceholder,
    ScanVariant.add32, ScanVariant.sub32, h1, h2, h3]
  omega

theorem getUnderlyingType_other (t : Nat) (h1 : ¬ (16 ≤ t ∧ t ≤ 27))
    (h2 : ¬ (28 ≤ t ∧ t ≤ 39)) : ScanVariant.getUnderlyingType t = t := by
  simp [ScanVariant.getUnderlyingType, ScanVariant.isRange, ScanVariant.isPlaceholder, h1, h2]

/-- C11: for every tag, `getUnderlyingType` returns `NUMERICTYPES_BEGIN + (t - RANGE_BEGIN)` on
a range tag, `NUMERICTYPES_BEGIN + (t - PLACEHOLDER_BEGIN)` on a placeholder tag and the tag
itself otherwise; no tag is both a range tag and a placeholder tag; on the range tags and
on the placeholder tags it is a bijection onto the numeric tags, among them `FILETIME64`
and `TICKTIME32`. -/
theorem getUnderlyingType_cases (t : Nat) :
    ScanVariant.getUnderlyingType t =
      (if ScanVariant.SCAN_VARIANT_RANGE_BEGIN ≤ t ∧ t ≤ ScanVariant.SCAN_VARIANT_RANGE_END then
        ScanVariant.SCAN_VARIANT_NUMERICTYPES_BEGIN + (t - ScanVariant.SCAN_VARIANT_RANGE_BEGIN)
      else if ScanVariant.SCAN_VARIANT_PLACEHOLDER_BEGIN ≤ t ∧
          t ≤ ScanVariant.SCAN_VARIANT_PLACEHOLDER_END then
        ScanVariant.SCAN_VARIANT_NUMERICTYPES_BEGIN +
          (t - ScanVariant.SCAN_VARIANT_PLACEHOLDER_BEGIN)
      else t) ∧
    (ScanVariant.isRange t = decide (ScanVariant.SCAN_VARIANT_RANGE_BEGIN ≤ t ∧
      t ≤ ScanVariant.SCAN_VARIANT_RANGE_END)) ∧
    (ScanVariant.isPlaceholder t = decide (ScanVariant.SCAN_VARIANT_PLACEHOLDER_BEGIN ≤ t ∧
      t ≤ ScanVariant.SCAN_VARIANT_PLACEHOLDER_END)) ∧
    ¬ (ScanVariant.isRange t = true ∧ ScanVariant.isPlaceholder t = true) ∧
    Set.BijOn ScanVariant.getUnderlyingType
      (Set.Icc ScanVariant.SCAN_VARIANT_RANGE_BEGIN ScanVariant.SCAN_VARIANT_RANGE_END)
      (Set.Icc ScanVariant.SCAN_VARIANT_NUMERICTYPES_BEGIN
        ScanVariant.SCAN_VARIANT_NUMERICTYPES_END) ∧
    Set.BijOn ScanVariant.getUnderlyingType
      (Set.Icc ScanVariant.SCAN_VARIANT_PLACEHOLDER_BEGIN
        ScanVariant.SCAN_VARIANT_PLACEHOLDER_END)
      (Set.Icc ScanVariant.SCAN_VARIANT_NUMERICTYPES_BEGIN
        ScanVariant.SCAN_VARIANT_NUMERICTYPES_END) ∧
    ScanVariant.SCAN_VARIANT_FILETIME64 ∈
      Set.Icc ScanVariant.SCAN_VARIANT_NUMERICTYPES_BEGIN
        ScanVariant.SCAN_VARIANT_NUMERICTYPES_END ∧
    ScanVariant.SCAN_VARIANT_TICKTIME32 ∈
      Set.Icc ScanVariant.SCAN_VARIANT_NUMERICTYPES_BEGIN
        ScanVariant.SCAN_VARIANT_NUMERICTYPES_END := by
  refine ⟨?_, ?_, ?_, ?_, ?_, ?_, ?_, ?_⟩
  · by_cases h1 : 16 ≤ t ∧ t ≤ 27
    · rw [getUnderlyingType_range t h1.1 h1.2]
      simp [h1]
      omega
    · by_cases h2 : 28 ≤ t ∧ t ≤ 39
      · rw [getUnderlyingType_placeholder t h2.1 h2.2]
        simp [h1, h2]
        omega
      · rw [getUnderlyingType_other t h1 h2]
        simp [h1, h2]
  · simp [ScanVariant.isRange]
  · simp [ScanVariant.isPlaceholder]
  · simp [ScanVariant.isRange, ScanVariant.isPlaceholder]
    omega
  · refine ⟨?_, ?_, ?_⟩
    · intro x hx
      simp only [Set.mem_Icc] at hx ⊢
      simp at hx
      rw [getUnderlyingType_range x hx.1 hx.2]
      simp
      omega
    · intro x hx y hy hxy
      simp at hx hy
      rw [getUnderlyingType_range x hx.1 hx.2, getUnderlyingType_range y hy.1 hy.2] at hxy
      omega
    · intro u hu
      simp at hu
      refine ⟨u + 14, ?_, ?_⟩
      · simp
        omega
      · rw [getUnderlyingType_range (u + 14) (by omega) (by omega)]
        omega
  · refine ⟨?_, ?_, ?_⟩
    · intro x hx
      simp only [Set.mem_Icc] at hx ⊢
      simp at hx
      rw [getUnderlyingType_placeholder x hx.1 hx.2]
      simp
      omega
    · intro x hx y hy hxy
      simp at hx hy
      rw [getUnderlyingType_placeholder x hx.1 hx.2,
        getUnderlyingType_placeholder y hy.1 hy.2] at hxy
      omega
    · intro u hu
      simp at hu
      refine ⟨u + 26, ?_, ?_⟩
      · simp
        omega
      · rw [getUnderlyingType_placeholder (u + 26) (by omega) (by omega)]
        omega
  · simp
  · simp

/-- C14: for every tag of the enumeration, the index `getUnderlyingType` that `getTypeTraits`
uses is at most `SCAN_VARIANT_NULL`, inside the table of `SCAN_VARIANT_NULL + 1` entries; for
a range tag or a placeholder tag it is a numeric tag, so it is none of the string tags,
`STRUCTURE` or `NULL`. -/
theorem getTypeTraits_index_in_table (t : Nat)
    (h : t ≤ ScanVariant.SCAN_VARIANT_PLACEHOLDER_END) :
    ScanVariant.getUnderlyingType t ≤ ScanVariant.SCAN_VARIANT_NULL ∧
    ScanVariant.getUnderlyingType t < ScanVariant.UnderlyingTypeTraitsSize ∧
    ((ScanVariant.isRange t = true ∨ ScanVariant.isPlaceholder t = true) →
      ScanVariant.SCAN_VARIANT_NUMERICTYPES_BEGIN ≤ ScanVariant.getUnderlyingType t ∧
      ScanVariant.getUnderlyingType t ≤ ScanVariant.SCAN_VARIANT_NUMERICTYPES_END ∧
      ScanVariant.getUnderlyingType t ≠ ScanVariant.SCAN_VARIANT_ASCII_STRING ∧
      ScanVariant.getUnderlyingType t ≠ ScanVariant.SCAN_VARIANT_WIDE_STRING ∧
      ScanVariant.getUnderlyingType t ≠ ScanVariant.SCAN_VARIANT_STRUCTURE ∧
      ScanVariant.getUnderlyingType t ≠ ScanVariant.SCAN_VARIANT_NULL) := by
  simp at h
  simp only [ScanVariant.UnderlyingTypeTraitsSize, ScanVariant.isRange,
    ScanVariant.isPlaceholder]
  simp
  by_cases h1 : 16 ≤ t ∧ t ≤ 27
  · rw [getUnderlyingType_range t h1.1 h1.2]
    omega
  · by_cases h2 : 28 ≤ t ∧ t ≤ 39
    · rw [getUnderlyingType_placeholder t h2.1 h2.2]
      omega
    · rw [getUnderlyingType_other t h1 h2]
      omega

/-- The last tag of the enumeration, the placeholder of `TICKTIME32`. -/
theorem getTypeTraits_index_in_table_witness :
    ScanVariant.getUnderlyingType 39 ≤ ScanVariant.SCAN_VARIANT_NULL ∧
    ScanVariant.getUnderlyingType 39 < ScanVariant.UnderlyingTypeTraitsSize :=
  have h := getTypeTraits_index_in_table 39 (by decide)
  ⟨h.1, h.2.1⟩

/-! ## Opaque objects of the scripting layer -/

/-- C13: an object made by `createLuaObject s p` is read back by `getLuaObject` with the type
name `s`, which returns true and the pointer `p`; with any other type name the result is
false; and `getLuaObject` returns false on every value that is not a keyed map holding a
string under `objectType` and a pointer under `objectPointer`. -/
theorem getLuaObject_createLuaObject (s t : String) (p out : Nat) (object : LuaVariant) :
    LuaEngine.getLuaObject (LuaEngine.createLuaObject s p) s out = (true, p) ∧
    (t ≠ s → LuaEngine.getLuaObject (LuaEngine.createLuaObject s p) t out = (false, out)) ∧
    ((¬ ∃ res ty ptr, object = LuaVariant.ktable res ∧
          ktableFind res "objectType" = some (LuaVariant.string ty) ∧
          ktableFind res "objectPointer" = some (LuaVariant.pointer ptr)) →
      LuaEngine.getLuaObject object t out = (false, out)) := by
  refine ⟨?_, ?_, ?_⟩
  · simp [LuaEngine.getLuaObject, LuaEngine.createLuaObject, ktableSet, ktableFind,
      LuaVariant.getAsKTable, LuaVariant.getAsString, LuaVariant.getAsPointer]
  · intro hne
    have hne2 : ¬ s = t := fun h => hne h.symm
    simp [LuaEngine.getLuaObject, LuaEngine.createLuaObject, ktableSet, ktableFind,
      LuaVariant.getAsKTable, LuaVariant.getAsString, LuaVariant.getAsPointer, hne2]
  · intro hno
    unfold LuaEngine.getLuaObject
    cases object with
    | ktable res =>
      simp only [LuaVariant.getAsKTable]
      cases h1 : ktableFind res "objectType" with
      | none => rfl
      | some it =>
        cases it with
        | string ty =>
          simp only [LuaVariant.getAsString]
          by_cases hty : ty = t
          · simp only [hty, ne_eq, not_true_eq_false, if_false]
            cases h2 : ktableFind res "objectPointer" with
            | none => rfl
            | some it2 =>
              cases it2 with
              | pointer ptr => exact absurd ⟨res, ty, ptr, rfl, h1, h2⟩ hno
              | _ => rfl
          · simp [hty]
        | _ => rfl
    | _ => rfl

/-- An object of type `ScannerPair` read back with its own type name. -/
theorem getLuaObject_createLuaObject_witness :
    LuaEngine.getLuaObject (LuaEngine.createLuaObject "ScannerPair" 4096) "ScannerPair" 0 =
      (true, 4096) :=
  (getLuaObject_createLuaObject "ScannerPair" "ScannerTarget" 4096 0 LuaVariant.nil).1

/-! ## Ranges through the scripting value -/

end XenoScan
